import Mathlib

/-!
Verification of the clipforge frontend (Next.js client and API proxy routes)
against its natural-language specification.

The client component in `frontend/app/page.tsx` and the two proxy routes
(`frontend/app/api/generate/route.ts` and `frontend/app/api/status/[jobId]/route.ts`)
are embedded shallowly: the React state hooks become fields of a `ClientState`
record, each handler becomes a pure state-transition function, and the
asynchronous fetch outcomes become explicit event parameters.  The Python
backend (jobs.py, video.py, tts.py, cleanup.py) is not part of the sources;
where a claim depends on it, the relevant backend behaviour is modelled
directly from the specification and marked as such.
-/

namespace Clipforge

/-! ## A small JSON value model

Used to state what the proxy routes do to request/response bodies. -/

inductive Json where
  | null : Json
  | bool (b : Bool) : Json
  | num (n : Int) : Json
  | str (s : String) : Json
  | arr (xs : List Json) : Json
  | obj (fields : List (String × Json)) : Json

/-- Property read `data.k` on a JSON value: first field with that key, if any.
(On a non-object the JS property read yields `undefined`; reading a property
of `null` would throw, which only reaches the routes' catch-all path.) -/
def Json.getField : Json → String → Option Json
  | Json.obj fields, k =>
      match fields.find? (fun p => p.1 == k) with
      | some p => some p.2
      | none => none
  | _, _ => none

/-- Property write `data.k = v`: replaces the value of every existing field
with that key, leaving other fields and their order untouched. -/
def Json.setField : Json → String → Json → Json
  | Json.obj fields, k, v => Json.obj (fields.map (fun p => if p.1 == k then (p.1, v) else p))
  | j, _, _ => j

/-- JavaScript `String.prototype.startsWith`: a character-sequence check. -/
def jsStartsWith (s pre : String) : Bool :=
  pre.data.isPrefixOf s.data

/-- JavaScript `String.prototype.trim`: strip leading and trailing
whitespace. -/
def jsTrim (s : String) : String :=
  String.mk (((s.data.dropWhile Char.isWhitespace).reverse.dropWhile Char.isWhitespace).reverse)

/-! ## Client data model (page.tsx) -/

/-- `const MAX_CHARS = 2200` — the single source of truth for the UI
character limit (page.tsx line 9). -/
def MAX_CHARS : Nat := 2200

/-- `type AppState = "idle" | "pending" | "processing" | "done" | "error"`. -/
inductive AppState where
  | idle | pending | processing | done | error
deriving DecidableEq

/-- The backend job status carried by a poll response
(`status: "pending" | "processing" | "done" | "error"`). -/
inductive JobStatus where
  | pending | processing | done | error
deriving DecidableEq

/-- `interface PollResponse` from page.tsx.  `progress` is typed as a number
but the code defends against its absence with `?? 0`, so it is an `Option`
here; `message`, `url` and `error` are optional fields. -/
structure PollResponse where
  status : JobStatus
  progress : Option Int
  message : Option String
  url : Option String
  error : Option String
deriving DecidableEq

/-- The React state of the `Home` component: one field per `useState` hook,
plus `pollActive` for whether the `setInterval` handle in `pollRef` is live. -/
structure ClientState where
  script : String
  appState : AppState
  progress : Int
  statusMessage : String
  videoUrl : Option String
  errorMsg : Option String
  pollActive : Bool
deriving DecidableEq

/-- The initial hook values: empty script, `idle`, progress 0, no message,
no video URL, no error, no interval registered. -/
def initState : ClientState :=
  { script := "", appState := AppState.idle, progress := 0, statusMessage := "",
    videoUrl := none, errorMsg := none, pollActive := false }

/-! ## Derived state (page.tsx lines 142-146) -/

/-- `const isProcessing = appState === "pending" || appState === "processing"`. -/
def isProcessing (s : ClientState) : Bool :=
  s.appState == AppState.pending || s.appState == AppState.processing

/-- `const charCount = script.length`. -/
def charCount (s : ClientState) : Nat :=
  s.script.length

/-- `const isOverLimit = charCount > MAX_CHARS`. -/
def isOverLimit (s : ClientState) : Bool :=
  decide (charCount s > MAX_CHARS)

/-- `const canGenerate = script.trim().length > 0 && !isProcessing && !isOverLimit`. -/
def canGenerate (s : ClientState) : Bool :=
  decide ((jsTrim s.script).length > 0) && !isProcessing s && !isOverLimit s

/-! ## Handlers -/

/-- `stopPolling`: clears the interval if one is registered. -/
def stopPolling (s : ClientState) : ClientState :=
  { s with pollActive := false }

/-- One successfully parsed poll response applied to the client state —
the body of `pollStatus` after `res.ok` and `res.json()` both succeeded:
`setProgress(data.progress ?? 0)`, then `if (data.message) setStatusMessage`,
then the `done`/`error` terminal branches (each stops polling). -/
def applyPoll (s : ClientState) (r : PollResponse) : ClientState :=
  let s1 := { s with progress := r.progress.getD 0 }
  let s2 :=
    match r.message with
    | some m => if m != "" then { s1 with statusMessage := m } else s1
    | none => s1
  match r.status with
  | JobStatus.done =>
      { (stopPolling s2) with appState := AppState.done, videoUrl := r.url }
  | JobStatus.error =>
      { (stopPolling s2) with
        appState := AppState.error
        errorMsg := some (r.error.getD "An unknown error occurred.") }
  | _ => s2

/-- Outcome of one `pollStatus` invocation's fetch: the response was not ok
(`if (!res.ok) return`), the fetch or JSON parse threw (swallowed by the
catch), or a parsed response was obtained. -/
inductive PollResult where
  | notOk : PollResult
  | threw : PollResult
  | ok (r : PollResponse) : PollResult
deriving DecidableEq

/-- One `pollStatus` invocation as a state transition. -/
def pollStatus (s : ClientState) : PollResult → ClientState
  | PollResult.notOk => s
  | PollResult.threw => s
  | PollResult.ok r => applyPoll s r

/-- `Response.ok` in fetch: status code in the 2xx range. -/
def resOk (code : Nat) : Bool :=
  decide (200 ≤ code) && decide (code < 300)

/-- Classifies an HTTP status code plus parsed body into a `PollResult`,
mirroring `if (!res.ok) return` before the body is consumed. -/
def PollResult.ofHttp (code : Nat) (r : PollResponse) : PollResult :=
  if resOk code then PollResult.ok r else PollResult.notOk

/-- Outcome of `handleGenerate`'s fetch to `/api/generate`: an ok response
carrying a `jobId`, or a failure (non-ok response or thrown fetch), which
lands in the catch block with an error message. -/
inductive GenOutcome where
  | httpOk (jobId : String) : GenOutcome
  | httpFail (msg : String) : GenOutcome
deriving DecidableEq

/-- The early-return guard of `handleGenerate`:
`if (!script.trim() || isProcessing || charCount > MAX_CHARS) return`. -/
def genBlocked (s : ClientState) : Bool :=
  jsTrim s.script == "" || isProcessing s || decide (charCount s > MAX_CHARS)

/-- `handleGenerate` as a state transition.  Returns the new state and
whether a fetch to `/api/generate` was issued at all: when the guard fires
the function returns before any request and before any `set*` call. -/
def handleGenerate (s : ClientState) (out : GenOutcome) : ClientState × Bool :=
  if genBlocked s then (s, false)
  else
    let s1 := { (stopPolling s) with
                appState := AppState.pending
                errorMsg := none
                videoUrl := none
                progress := 0
                statusMessage := "Submitting job..." }
    match out with
    | GenOutcome.httpOk _ =>
        ({ s1 with
           appState := AppState.processing
           statusMessage := "Generating voiceover..."
           pollActive := true }, true)
    | GenOutcome.httpFail m =>
        ({ s1 with appState := AppState.error, errorMsg := some m }, true)

/-- `handleReset`: stop polling and restore the idle hook values
(the script text itself is kept). -/
def handleReset (s : ClientState) : ClientState :=
  { (stopPolling s) with
    appState := AppState.idle
    progress := 0
    statusMessage := ""
    videoUrl := none
    errorMsg := none }

/-! ## The client event loop -/

/-- The events that can drive the component: editing the textarea (disabled
while processing), clicking Generate, an interval tick of `pollStatus`
(fires only while the interval is registered), and clicking a reset button. -/
inductive Event where
  | edit (t : String) : Event
  | generate (out : GenOutcome) : Event
  | poll (pr : PollResult) : Event
  | reset : Event

/-- One step of the client. -/
def step (s : ClientState) : Event → ClientState
  | Event.edit t => if isProcessing s then s else { s with script := t }
  | Event.generate out => (handleGenerate s out).1
  | Event.poll pr => if s.pollActive then pollStatus s pr else s
  | Event.reset => handleReset s

/-- The states the client can reach from its initial render. -/
inductive Reachable : ClientState → Prop where
  | init : Reachable initState
  | next {s : ClientState} (h : Reachable s) (e : Event) : Reachable (step s e)

/-! ## The generate proxy (frontend/app/api/generate/route.ts) -/

/-- `const BACKEND_URL = raw.startsWith("http") ? raw : "https://" + raw`:
ensure the configured backend URL has a protocol so `fetch` does not throw. -/
def computeBackendUrl (raw : String) : String :=
  if jsStartsWith raw "http" then raw else "https://" ++ raw

/-- The body the generate proxy forwards to `POST {BACKEND_URL}/jobs`:
`JSON.stringify({ text: body.text })`.  Only the `text` property of the
submitted JSON is read; when it is absent, `JSON.stringify` drops the
`undefined`-valued key and the forwarded object is empty. -/
def forwardedBody (body : Json) : Json :=
  match body.getField "text" with
  | some v => Json.obj [("text", v)]
  | none => Json.obj []

/-- The generate route's answer given the backend's response `(status, data)`:
`NextResponse.json(data, { status: upstream.status })` — both parts returned
exactly as received. -/
def generateProxy (up : Nat × Json) : Nat × Json :=
  up

/-! ## The status proxy (frontend/app/api/status/[jobId]/route.ts) -/

/-- The status route's body rewrite:
`if (data.url && !data.url.startsWith("http")) data.url = BACKEND_URL + data.url`.
A truthy `url` (a non-empty string, per the backend contract) that does not
start with `"http"` is prefixed with the backend URL; everything else is
returned untouched. -/
def statusProxyBody (backendUrl : String) (data : Json) : Json :=
  match data.getField "url" with
  | some (Json.str u) =>
      if (u != "") && !(jsStartsWith u "http")
      then data.setField "url" (Json.str (backendUrl ++ u))
      else data
  | _ => data

/-- The status route's answer given the backend's response:
`NextResponse.json(data, { status: upstream.status })` after the url rewrite —
the backend's status code is preserved verbatim. -/
def statusProxy (backendUrl : String) (up : Nat × Json) : Nat × Json :=
  (up.1, statusProxyBody backendUrl up.2)

/-! ## Backend job progress, modelled from the spec

The backend job store and orchestrator (backend/jobs.py, backend/main.py)
are not among the sources; claims about the progress a poller reads are
settled against a model of the spec's stage machine. -/

/-- Modelled from the spec: the pipeline stages of §4.5 for the missing
backend orchestrator (backend/main.py), in execution order. -/
inductive PipelineStage where
  | created | admitted | synthesized | cuesComputed | rendered | finished
deriving DecidableEq

/-- Modelled from the spec: the progress value the missing job store
(backend/jobs.py) records at each stage boundary of §4.5 — 0 on admission,
about 30 after synthesis, 45-55 after cue computation, 90 after rendering,
100 when done. -/
def stageProgress : PipelineStage → Int
  | PipelineStage.created => 0
  | PipelineStage.admitted => 0
  | PipelineStage.synthesized => 30
  | PipelineStage.cuesComputed => 55
  | PipelineStage.rendered => 90
  | PipelineStage.finished => 100

/-- Modelled from the spec: a backend job is at some stage and may have
failed; on failure the job becomes terminal `error` and its progress is not
written again. -/
structure BackendJob where
  stage : PipelineStage
  failed : Bool
deriving DecidableEq

/-- Modelled from the spec: a job starts at creation, not failed. -/
def BackendJob.start : BackendJob :=
  { stage := PipelineStage.created, failed := false }

/-- Modelled from the spec: what can happen to a job between two status
reads — the orchestrator completes the next stage, or the current stage
fails. -/
inductive JobEvt where
  | advance : JobEvt
  | fail : JobEvt
deriving DecidableEq

/-- Modelled from the spec: the successor of each stage (§4.5); `finished`
is terminal. -/
def nextStage : PipelineStage → PipelineStage
  | PipelineStage.created => PipelineStage.admitted
  | PipelineStage.admitted => PipelineStage.synthesized
  | PipelineStage.synthesized => PipelineStage.cuesComputed
  | PipelineStage.cuesComputed => PipelineStage.rendered
  | PipelineStage.rendered => PipelineStage.finished
  | PipelineStage.finished => PipelineStage.finished

/-- Modelled from the spec: one transition of a backend job.  A failed job
is terminal and never moves; a finished job cannot fail. -/
def jobStep (j : BackendJob) (e : JobEvt) : BackendJob :=
  match e with
  | JobEvt.advance => if j.failed then j else { j with stage := nextStage j.stage }
  | JobEvt.fail =>
      if j.failed || j.stage == PipelineStage.finished then j
      else { j with failed := true }

/-- Modelled from the spec: the job after a sequence of backend events. -/
def runJob (es : List JobEvt) : BackendJob :=
  es.foldl jobStep BackendJob.start

/-- Modelled from the spec: the progress a status read returns for a job —
the last value the orchestrator wrote for its current stage. -/
def jobProgress (j : BackendJob) : Int :=
  stageProgress j.stage

/-! ## The Caption Timer, modelled from the spec

`calculate_word_timestamps` lives in backend/video.py, which is not among
the sources. -/

/-- Modelled from the spec: the Caption Timer of §4.2
(`calculate_word_timestamps` in the missing backend/video.py).  The duration
is distributed evenly over the `N` words: cue `i` spans
`[i*d/N, (i+1)*d/N)`, and the last cue's end is clamped exactly to `d`.
Time is modelled with exact rationals. -/
def computeCues (words : List String) (d : ℚ) : List (String × ℚ × ℚ) :=
  (List.range words.length).map (fun i =>
    (words.getD i "",
     (i : ℚ) * d / (words.length : ℚ),
     if i + 1 = words.length then d else ((i : ℚ) + 1) * d / (words.length : ℚ)))

/-! ## The client invariant -/

/-- The inductive invariant of the client event loop: while the polling
interval is live the client is in `processing` with no result and no error
recorded; a video URL is only ever held in `done`, an error message only in
`error`, and the `error` state always carries a message. -/
def Inv (s : ClientState) : Prop :=
  (s.pollActive = true →
      s.appState = AppState.processing ∧ s.videoUrl = none ∧ s.errorMsg = none)
  ∧ (s.videoUrl ≠ none → s.appState = AppState.done)
  ∧ (s.errorMsg ≠ none → s.appState = AppState.error)
  ∧ (s.appState = AppState.error → s.errorMsg ≠ none)

theorem inv_initState : Inv initState := by
  simp [Inv, initState]

theorem inv_step (s : ClientState) (h : Inv s) (e : Event) : Inv (step s e) := by
  obtain ⟨sc, st, pr, sm, vu, em, pa⟩ := s
  obtain ⟨h1, h2, h3, h4⟩ := h
  cases e with
  | edit t =>
      by_cases hp : isProcessing ⟨sc, st, pr, sm, vu, em, pa⟩ = true <;>
        · simp only [step, hp, if_true, if_false, Bool.false_eq_true]
          exact ⟨h1, h2, h3, h4⟩
  | reset =>
      simp [step, handleReset, stopPolling, Inv]
  | generate out =>
      by_cases hb : genBlocked ⟨sc, st, pr, sm, vu, em, pa⟩ = true
      · simp only [step, handleGenerate, hb, if_true]
        exact ⟨h1, h2, h3, h4⟩
      · cases out with
        | httpOk jobId =>
            simp [step, handleGenerate, hb, stopPolling, Inv]
        | httpFail m =>
            simp [step, handleGenerate, hb, stopPolling, Inv]
  | poll pres =>
      by_cases hpa : pa = true
      · obtain ⟨hst, hvu, hem⟩ := h1 hpa
        simp only at hst hvu hem
        subst hst hvu hem hpa
        cases pres with
        | notOk => exact ⟨h1, h2, h3, h4⟩
        | threw => exact ⟨h1, h2, h3, h4⟩
        | ok r =>
            obtain ⟨rst, rpr, rmsg, rurl, rerr⟩ := r
            cases rst <;> cases rmsg <;>
              simp [step, pollStatus, applyPoll, stopPolling, Inv] <;>
              split <;> simp [Inv]
      · have hpa0 : pa = false := by
          cases pa
          · rfl
          · exact absurd rfl hpa
        subst hpa0
        simp only [step, Bool.false_eq_true, if_false]
        exact ⟨h1, h2, h3, h4⟩

theorem reachable_inv {s : ClientState} (h : Reachable s) : Inv s := by
  induction h with
  | init => exact inv_initState
  | next h e ih => exact inv_step _ ih e

/-! ## Claims -/

/-- Claim C1: for every script whose character count exceeds `MAX_CHARS`,
`handleGenerate` returns before any fetch to `/api/generate` (no submission
request, no job created, no state change), and the generate button predicate
`canGenerate` is false. -/
theorem c1_over_limit_rejected (s : ClientState) (out : GenOutcome)
    (h : charCount s > MAX_CHARS) :
    handleGenerate s out = (s, false) ∧ canGenerate s = false := by
  have hb : genBlocked s = true := by
    simp [genBlocked, h]
  exact ⟨by simp [handleGenerate, hb], by simp [canGenerate, isOverLimit, h]⟩

/-- A 2201-character script for exercising the limit. -/
def c1Script : String := String.mk (List.replicate 2201 'a')

theorem c1_witness :
    charCount { initState with script := c1Script } > MAX_CHARS
    ∧ handleGenerate { initState with script := c1Script } (GenOutcome.httpOk "j1")
        = ({ initState with script := c1Script }, false)
    ∧ canGenerate { initState with script := c1Script } = false := by
  have h : charCount { initState with script := c1Script } > MAX_CHARS := by
    have hlen : (String.mk (List.replicate 2201 'a')).length
        = (List.replicate 2201 'a').length := rfl
    simp only [charCount, c1Script, MAX_CHARS, hlen, List.length_replicate]
    omega
  exact ⟨h, (c1_over_limit_rejected _ (GenOutcome.httpOk "j1") h).1,
    (c1_over_limit_rejected _ (GenOutcome.httpOk "j1") h).2⟩

/-- Claim C2: for every script that is empty or whitespace-only (its trim is
empty), `handleGenerate` returns before any fetch and before any state
change — no external call is made and no job is started; `canGenerate` is
false as well. -/
theorem c2_blank_rejected (s : ClientState) (out : GenOutcome)
    (h : jsTrim s.script = "") :
    handleGenerate s out = (s, false) ∧ canGenerate s = false := by
  have hb : genBlocked s = true := by
    simp [genBlocked, h]
  exact ⟨by simp [handleGenerate, hb], by simp [canGenerate, h]⟩

theorem c2_witness :
    jsTrim "   " = ""
    ∧ handleGenerate { initState with script := "   " } (GenOutcome.httpOk "j2")
        = ({ initState with script := "   " }, false)
    ∧ canGenerate { initState with script := "   " } = false := by
  have h : jsTrim ({ initState with script := "   " } : ClientState).script = "" := by decide
  exact ⟨by decide, (c2_blank_rejected _ (GenOutcome.httpOk "j2") h).1,
    (c2_blank_rejected _ (GenOutcome.httpOk "j2") h).2⟩

/-- Claim C6: the status proxy answers with the backend's status code
preserved verbatim (a 404 stays a 404), and a non-ok response makes
`pollStatus` return with the client state untouched — an unknown job is
never displayed as a pending-looking status. -/
theorem c6_unknown_id_distinct (backendUrl : String) (up : Nat × Json)
    (s : ClientState) (code : Nat) (r : PollResponse)
    (hcode : resOk code = false) :
    (statusProxy backendUrl up).1 = up.1
    ∧ pollStatus s (PollResult.ofHttp code r) = s := by
  refine ⟨rfl, ?_⟩
  simp [PollResult.ofHttp, hcode, pollStatus]

theorem c6_witness :
    (statusProxy "http://localhost:8000"
        (404, Json.obj [("detail", Json.str "Job not found")])).1 = 404
    ∧ pollStatus initState
        (PollResult.ofHttp 404
          { status := JobStatus.pending, progress := some 0,
            message := none, url := none, error := none }) = initState :=
  c6_unknown_id_distinct "http://localhost:8000"
    (404, Json.obj [("detail", Json.str "Job not found")]) initState 404
    { status := JobStatus.pending, progress := some 0,
      message := none, url := none, error := none } (by decide)

/-- Claim C9: a failed status poll never becomes a job error — a non-ok
response or a thrown fetch leaves the whole client state (and thus the
live interval) unchanged, and a parsed response moves the client into
`error` only when it itself carries status `error`. -/
theorem c9_failed_poll_harmless (s : ClientState) (r : PollResponse) :
    pollStatus s PollResult.notOk = s
    ∧ pollStatus s PollResult.threw = s
    ∧ ((pollStatus s (PollResult.ok r)).appState = AppState.error →
        r.status = JobStatus.error ∨ s.appState = AppState.error) := by
  refine ⟨rfl, rfl, ?_⟩
  obtain ⟨sc, st, pr, sm, vu, em, pa⟩ := s
  obtain ⟨rst, rpr, rmsg, rurl, rerr⟩ := r
  cases rst <;> cases rmsg <;>
    simp [pollStatus, applyPoll, stopPolling] <;>
    split <;> simp

/-- A client state in mid-poll and an error response, for the C9 witness. -/
def c9State : ClientState :=
  { script := "hi", appState := AppState.processing, progress := 30,
    statusMessage := "Generating voiceover...", videoUrl := none,
    errorMsg := none, pollActive := true }

theorem c9_witness :
    pollStatus c9State PollResult.notOk = c9State
    ∧ (JobStatus.error = JobStatus.error ∨ c9State.appState = AppState.error) :=
  ⟨(c9_failed_poll_harmless c9State
      { status := JobStatus.error, progress := some 30, message := none,
        url := none, error := some "boom" }).1,
   (c9_failed_poll_harmless c9State
      { status := JobStatus.error, progress := some 30, message := none,
        url := none, error := some "boom" }).2.2 (by decide)⟩

/-- Claim C10: the generate proxy forwards exactly the object
`{text: body.text}` — every other field of the submitted JSON is discarded —
and the backend base URL always carries a protocol: an `https://` prefix is
added exactly when the configured URL does not start with `"http"`. -/
theorem c10_generate_forwarding :
    (∀ (body : Json) (v : Json), body.getField "text" = some v →
        forwardedBody body = Json.obj [("text", v)])
    ∧ (∀ body : Json, body.getField "text" = none → forwardedBody body = Json.obj [])
    ∧ (∀ (body : Json) (k : String), ¬k = "text" → (forwardedBody body).getField k = none)
    ∧ (∀ raw : String, jsStartsWith (computeBackendUrl raw) "http" = true)
    ∧ (∀ raw : String, jsStartsWith raw "http" = false →
        computeBackendUrl raw = "https://" ++ raw)
    ∧ (∀ raw : String, jsStartsWith raw "http" = true → computeBackendUrl raw = raw) := by
  have hpre : ∀ raw : String, jsStartsWith ("https://" ++ raw) "http" = true := by
    intro raw
    cases raw with
    | mk l => rfl
  refine ⟨?_, ?_, ?_, ?_, ?_, ?_⟩
  · intro body v h
    simp [forwardedBody, h]
  · intro body h
    simp [forwardedBody, h]
  · intro body k hk
    have hne : (("text" : String) == k) = false := by
      simp [hk, Ne.symm hk]
    unfold forwardedBody
    cases h' : body.getField "text" <;>
      simp [Json.getField, List.find?, hne]
  · intro raw
    unfold computeBackendUrl
    by_cases h : jsStartsWith raw "http" = true
    · simp [h]
    · have h' : jsStartsWith raw "http" = false := by
        cases hb : jsStartsWith raw "http"
        · rfl
        · exact absurd hb h
      simp [h', hpre raw]
  · intro raw h
    simp [computeBackendUrl, h]
  · intro raw h
    simp [computeBackendUrl, h]

theorem c10_witness :
    forwardedBody (Json.obj [("text", Json.str "hi"), ("secret", Json.num 7)])
      = Json.obj [("text", Json.str "hi")]
    ∧ computeBackendUrl "backend.railway.app" = "https://" ++ "backend.railway.app" :=
  ⟨c10_generate_forwarding.1 (Json.obj [("text", Json.str "hi"), ("secret", Json.num 7)])
      (Json.str "hi") rfl,
   c10_generate_forwarding.2.2.2.2.1 "backend.railway.app" (by decide)⟩

/-- A done-response with no `url` field, as the backend contract permits the
`url` key to be optional in a parsed `PollResponse`. -/
def c3DoneNoUrl : PollResponse :=
  { status := JobStatus.done, progress := some 100, message := none,
    url := none, error := none }

/-- The client state after generating from script `"hi"` and receiving a
done-response that carries no `url`. -/
def c3Cex : ClientState :=
  step (step (step initState (Event.edit "hi")) (Event.generate (GenOutcome.httpOk "job1")))
    (Event.poll (PollResult.ok c3DoneNoUrl))

/-- Claim C3 counterexample: a reachable client state is in `done` with
`videoUrl = none` — `setVideoUrl(data.url ?? null)` stores `null` when the
done-response has no `url`, so "whenever the state is done the result
location is present" fails on the client as stated. -/
theorem c3_counterexample :
    Reachable c3Cex ∧ c3Cex.appState = AppState.done ∧ c3Cex.videoUrl = none :=
  ⟨Reachable.next (Reachable.next (Reachable.next Reachable.init
      (Event.edit "hi")) (Event.generate (GenOutcome.httpOk "job1")))
      (Event.poll (PollResult.ok c3DoneNoUrl)),
   by decide, by decide⟩

/-- Claim C3 (amended): in every reachable client state, `videoUrl` is
non-null only when the state is `done`, `errorMsg` is non-null only when the
state is `error`, the `error` state always has an error message, and the two
are never populated at once.  The remaining direction — `done` implies
`videoUrl` present — holds only when the terminal done-response carries a
`url`, which the counterexample shows the client does not enforce. -/
theorem c3_terminal_fields (s : ClientState) (h : Reachable s) :
    (s.videoUrl ≠ none → s.appState = AppState.done)
    ∧ (s.errorMsg ≠ none → s.appState = AppState.error)
    ∧ (s.appState = AppState.error → s.errorMsg ≠ none)
    ∧ ¬(s.videoUrl ≠ none ∧ s.errorMsg ≠ none) := by
  obtain ⟨h1, h2, h3, h4⟩ := reachable_inv h
  refine ⟨h2, h3, h4, ?_⟩
  rintro ⟨hv, he⟩
  have hd := h2 hv
  have herr := h3 he
  rw [hd] at herr
  exact AppState.noConfusion herr

theorem c3_witness :
    (step (step initState (Event.edit "x")) (Event.generate (GenOutcome.httpFail "boom"))).errorMsg
      ≠ none :=
  (c3_terminal_fields _
    (Reachable.next (Reachable.next Reachable.init (Event.edit "x"))
      (Event.generate (GenOutcome.httpFail "boom")))).2.2.1 (by decide)

/-- Claim C5: `done` and `error` are terminal for the client's job — in any
reachable terminal state the polling interval has been cleared, so a poll
tick is a complete no-op; moreover even a hypothetical poll application
could only keep the state terminal, editing never changes the app state,
and only the explicit reset returns the client to `idle`.  (Submitting a
new script starts a fresh job; it never resumes the finished one.) -/
theorem c5_terminal_final (s : ClientState) (h : Reachable s)
    (ht : s.appState = AppState.done ∨ s.appState = AppState.error) :
    s.pollActive = false
    ∧ (∀ pres : PollResult, step s (Event.poll pres) = s)
    ∧ (∀ r : PollResponse, (applyPoll s r).appState = AppState.done
        ∨ (applyPoll s r).appState = AppState.error)
    ∧ (step s Event.reset).appState = AppState.idle := by
  obtain ⟨h1, h2, h3, h4⟩ := reachable_inv h
  have hpa : s.pollActive = false := by
    cases hb : s.pollActive
    · rfl
    · have hproc := (h1 hb).1
      rcases ht with hdone | herr
      · rw [hproc] at hdone
        exact AppState.noConfusion hdone
      · rw [hproc] at herr
        exact AppState.noConfusion herr
  refine ⟨hpa, ?_, ?_, ?_⟩
  · intro pres
    simp [step, hpa]
  · intro r
    obtain ⟨sc, st, pr, sm, vu, em, pa⟩ := s
    obtain ⟨rst, rpr, rmsg, rurl, rerr⟩ := r
    simp only at ht
    cases rst <;> cases rmsg <;>
      rcases ht with ht | ht <;>
      subst ht <;>
      simp [applyPoll, stopPolling] <;>
      split <;> simp
  · simp [step, handleReset, stopPolling]

/-- A reachable terminal (`error`) state for the C5 witness. -/
def c5State : ClientState :=
  step (step initState (Event.edit "hey")) (Event.generate (GenOutcome.httpFail "down"))

theorem c5_witness :
    c5State.pollActive = false
    ∧ step c5State (Event.poll PollResult.notOk) = c5State
    ∧ (step c5State Event.reset).appState = AppState.idle := by
  have h := c5_terminal_final c5State
    (Reachable.next (Reachable.next Reachable.init (Event.edit "hey"))
      (Event.generate (GenOutcome.httpFail "down")))
    (Or.inr (by decide))
  exact ⟨h.1, h.2.1 PollResult.notOk, h.2.2.2⟩

theorem jobProgress_le_step (j : BackendJob) (e : JobEvt) :
    jobProgress j ≤ jobProgress (jobStep j e) := by
  obtain ⟨st, f⟩ := j
  cases e with
  | advance => cases f <;> cases st <;> simp [jobStep, jobProgress, nextStage, stageProgress]
  | fail => cases f <;> cases st <;> simp [jobStep, jobProgress, stageProgress]

theorem jobProgress_le_foldl (more : List JobEvt) :
    ∀ j : BackendJob, jobProgress j ≤ jobProgress (more.foldl jobStep j) := by
  induction more with
  | nil => intro j; exact le_refl _
  | cons e rest ih =>
      intro j
      exact le_trans (jobProgress_le_step j e) (ih (jobStep j e))

/-- Claim C4: across every sequence of backend events (modelled from the
spec's stage machine, since the backend job store is not among the sources)
the progress a status read returns is an integer between 0 and 100 and is
monotonically non-decreasing; and after each successful poll the client
displays exactly the progress value it read. -/
theorem c4_progress_monotone :
    (∀ es more : List JobEvt,
        jobProgress (runJob es) ≤ jobProgress (runJob (es ++ more)))
    ∧ (∀ es : List JobEvt,
        0 ≤ jobProgress (runJob es) ∧ jobProgress (runJob es) ≤ 100)
    ∧ (∀ (s : ClientState) (r : PollResponse) (p : Int),
        r.progress = some p → (applyPoll s r).progress = p) := by
  refine ⟨?_, ?_, ?_⟩
  · intro es more
    rw [runJob, runJob, List.foldl_append]
    exact jobProgress_le_foldl more _
  · intro es
    have hall : ∀ j : BackendJob, 0 ≤ jobProgress j ∧ jobProgress j ≤ 100 := by
      intro j
      obtain ⟨st, f⟩ := j
      cases st <;> simp [jobProgress, stageProgress]
    exact hall _
  · intro s r p h
    obtain ⟨sc, st, pr, sm, vu, em, pa⟩ := s
    obtain ⟨rst, rpr, rmsg, rurl, rerr⟩ := r
    simp only at h
    subst h
    cases rst <;> cases rmsg <;>
      simp [applyPoll, stopPolling] <;>
      split <;> simp

theorem c4_witness :
    jobProgress (runJob [JobEvt.advance, JobEvt.advance])
        ≤ jobProgress (runJob ([JobEvt.advance, JobEvt.advance] ++ [JobEvt.advance]))
    ∧ (applyPoll initState
        { status := JobStatus.processing, progress := some 55, message := none,
          url := none, error := none }).progress = 55 :=
  ⟨c4_progress_monotone.1 [JobEvt.advance, JobEvt.advance] [JobEvt.advance],
   c4_progress_monotone.2.2 initState
     { status := JobStatus.processing, progress := some 55, message := none,
       url := none, error := none } 55 rfl⟩

theorem computeCues_getD (words : List String) (d : ℚ) (i : ℕ)
    (h : i < words.length) :
    (computeCues words d).getD i ("", 0, 0)
      = (words.getD i "", (i : ℚ) * d / (words.length : ℚ),
         if i + 1 = words.length then d
         else ((i : ℚ) + 1) * d / (words.length : ℚ)) := by
  unfold computeCues
  rw [List.getD_eq_getElem?_getD, List.getElem?_map, List.getElem?_range h]
  rfl

/-- Claim C7: for every word count N ≥ 1 and duration D > 0, the Caption
Timer (modelled from the spec, since backend/video.py is not among the
sources) produces exactly N cues; cue i spans [i·D/N, (i+1)·D/N) — the
last-cue clamp is exact in rational arithmetic; starts are non-decreasing;
each cue's end equals the next cue's start, so cues do not overlap; and the
final cue's end is exactly D. -/
theorem c7_caption_timer (words : List String) (d : ℚ)
    (hw : 1 ≤ words.length) (hd : 0 < d) :
    (computeCues words d).length = words.length
    ∧ (∀ i, i < words.length →
        (computeCues words d).getD i ("", 0, 0)
          = (words.getD i "", (i : ℚ) * d / (words.length : ℚ),
             ((i : ℚ) + 1) * d / (words.length : ℚ)))
    ∧ (∀ i j : ℕ, i ≤ j →
        (i : ℚ) * d / (words.length : ℚ) ≤ (j : ℚ) * d / (words.length : ℚ))
    ∧ (∀ i : ℕ, i + 1 < words.length →
        ((computeCues words d).getD i ("", 0, 0)).2.2
          = ((computeCues words d).getD (i + 1) ("", 0, 0)).2.1)
    ∧ ((computeCues words d).getD (words.length - 1) ("", 0, 0)).2.2 = d := by
  have hN0 : (words.length : ℚ) ≠ 0 := Nat.cast_ne_zero.mpr (by omega)
  have hNpos : (0 : ℚ) < (words.length : ℚ) := by
    exact_mod_cast (by omega : 0 < words.length)
  refine ⟨?_, ?_, ?_, ?_, ?_⟩
  · unfold computeCues
    rw [List.length_map, List.length_range]
  · intro i hi
    rw [computeCues_getD words d i hi]
    by_cases hlast : i + 1 = words.length
    · have hcast : ((i : ℚ) + 1) = (words.length : ℚ) := by
        rw [← hlast]
        push_cast
        ring
      rw [if_pos hlast, hcast, mul_div_cancel_left₀ _ hN0]
    · rw [if_neg hlast]
  · intro i j hij
    have hij' : (i : ℚ) ≤ (j : ℚ) := by exact_mod_cast hij
    have hmul : (i : ℚ) * d ≤ (j : ℚ) * d :=
      mul_le_mul_of_nonneg_right hij' (le_of_lt hd)
    exact (div_le_div_iff_of_pos_right hNpos).mpr hmul
  · intro i hi
    rw [computeCues_getD words d i (by omega), computeCues_getD words d (i + 1) hi]
    rw [if_neg (by omega)]
    simp only
    push_cast
    ring
  · have hi : words.length - 1 < words.length := by omega
    rw [computeCues_getD words d (words.length - 1) hi]
    rw [if_pos (by omega)]

theorem c7_witness :
    (computeCues ["Hello", "world"] 10).length = 2
    ∧ ((computeCues ["Hello", "world"] 10).getD 1 ("", 0, 0)).2.2 = 10 :=
  ⟨(c7_caption_timer ["Hello", "world"] 10 (by norm_num) (by norm_num)).1,
   (c7_caption_timer ["Hello", "world"] 10 (by norm_num) (by norm_num)).2.2.2.2⟩

/-- A backend status body with a relative video url. -/
def c8Body : Json :=
  Json.obj [("status", Json.str "done"), ("url", Json.str "/videos/a.mp4")]

/-- Claim C8 counterexample: the status proxy is not a pure pass-through —
a done-body carrying the relative url `/videos/a.mp4` is returned with that
field rewritten to an absolute backend URL, so the returned body differs
from the body received. -/
theorem c8_counterexample :
    statusProxyBody "http://localhost:8000" c8Body ≠ c8Body
    ∧ statusProxyBody "http://localhost:8000" c8Body
        = Json.obj [("status", Json.str "done"),
                    ("url", Json.str "http://localhost:8000/videos/a.mp4")] := by
  have heval : statusProxyBody "http://localhost:8000" c8Body
      = Json.obj [("status", Json.str "done"),
                  ("url", Json.str "http://localhost:8000/videos/a.mp4")] := rfl
  refine ⟨?_, heval⟩
  intro hEq
  rw [heval] at hEq
  simp [c8Body] at hEq

/-- Claim C8 (amended): the generate proxy returns the backend's body and
status code exactly as received; the status proxy preserves the status code
and returns the body unmodified except that a non-empty `url` field not
starting with `"http"` is rewritten to the backend-prefixed absolute URL. -/
theorem c8_proxy_passthrough :
    (∀ up : Nat × Json, generateProxy up = up)
    ∧ (∀ (u : String) (up : Nat × Json), (statusProxy u up).1 = up.1)
    ∧ (∀ (u : String) (d : Json) (s : String),
        d.getField "url" = some (Json.str s) →
        statusProxyBody u d
          = if (s != "") && !(jsStartsWith s "http")
            then d.setField "url" (Json.str (u ++ s))
            else d)
    ∧ (∀ (u : String) (d : Json),
        (∀ s : String, d.getField "url" ≠ some (Json.str s)) →
        statusProxyBody u d = d) := by
  refine ⟨fun _ => rfl, fun _ _ => rfl, ?_, ?_⟩
  · intro u d s h
    unfold statusProxyBody
    rw [h]
  · intro u d h
    unfold statusProxyBody
    cases h' : d.getField "url" with
    | none => rfl
    | some v =>
        cases v with
        | str s => exact absurd h' (h s)
        | null => rfl
        | bool b => rfl
        | num n => rfl
        | arr xs => rfl
        | obj fs => rfl

theorem c8_witness :
    statusProxyBody "https://api.example" (Json.obj [("url", Json.str "/v/x.mp4")])
      = if (("/v/x.mp4" != "") && !(jsStartsWith "/v/x.mp4" "http"))
        then (Json.obj [("url", Json.str "/v/x.mp4")]).setField "url"
              (Json.str ("https://api.example" ++ "/v/x.mp4"))
        else Json.obj [("url", Json.str "/v/x.mp4")] :=
  c8_proxy_passthrough.2.2.1 "https://api.example"
    (Json.obj [("url", Json.str "/v/x.mp4")]) "/v/x.mp4" rfl

end Clipforge
